import Mathlib

/-!
Shallow embedding of the Multi-Agent-AI-System repository
(src/core/orchestrator.py and src/core/planner_agent.py), with theorems
settling the frozen claims about planning, execution, goal assessment,
summary creation and plan refinement.

Python dictionaries whose keys are strings are modelled as association
lists `List (String × PyVal)` with first-match lookup and in-place update,
Python values as the inductive `PyVal`, truthiness as `pyTruthy`, and the
substring test `needle in haystack` as `pyInStr`.  Fallible Python code
(attribute errors, format errors) is modelled in the `Except String`
monad.  CPython's float division in `_assess_goal_achievement` is modelled
exactly: `len(successful)/total >= 0.5` becomes `total ≤ 2 * |successful|`.
-/

namespace MultiAgentSystem

/-- A Python value as used by the repository: None, bool, int, str,
list and string-keyed dict.  Floats other than scores do not occur in the
code paths under verification; numeric scores are modelled as integers. -/
inductive PyVal where
  | pnone  : PyVal
  | pbool  : Bool → PyVal
  | pint   : Int → PyVal
  | pstr   : String → PyVal
  | plist  : List PyVal → PyVal
  | pdict  : List (String × PyVal) → PyVal

/-- First-match lookup in a string-keyed dict. -/
def dictLookup : List (String × PyVal) → String → Option PyVal
  | [], _ => none
  | (k, v) :: t, key => if k = key then some v else dictLookup t key

/-- Python `key in d` for a dict `d`. -/
def hasKey (d : List (String × PyVal)) (key : String) : Bool :=
  (dictLookup d key).isSome

/-- Python `d.get(key, default)` for a dict `d`. -/
def dictGetD (d : List (String × PyVal)) (key : String) (dflt : PyVal) : PyVal :=
  (dictLookup d key).getD dflt

/-- Python `d[key] = v`: replace the first binding of `key`, else append. -/
def dictInsert : List (String × PyVal) → String → PyVal → List (String × PyVal)
  | [], key, v => [(key, v)]
  | (k, w) :: t, key, v =>
      if k = key then (key, v) :: t else (k, w) :: dictInsert t key v

/-- Python truthiness. -/
def pyTruthy : PyVal → Bool
  | .pnone => false
  | .pbool b => b
  | .pint n => n ≠ 0
  | .pstr s => s ≠ ""
  | .plist l => !l.isEmpty
  | .pdict d => !d.isEmpty

/-- `isinstance(v, dict)`. -/
def isDict : PyVal → Bool
  | .pdict _ => true
  | _ => false

/-- `isinstance(v, list)`. -/
def isList : PyVal → Bool
  | .plist _ => true
  | _ => false

mutual
/-- Python `repr` of a value (string escaping inside reprs is not modelled;
no claim depends on the repr of a string containing quotes). -/
def pyRepr : PyVal → String
  | .pnone => "None"
  | .pbool true => "True"
  | .pbool false => "False"
  | .pint n => toString n
  | .pstr s => "'" ++ s ++ "'"
  | .plist l => "[" ++ pyReprItems l ++ "]"
  | .pdict d => "\x7b" ++ pyReprEntries d ++ "\x7d"

/-- Comma-separated reprs of list items. -/
def pyReprItems : List PyVal → String
  | [] => ""
  | [x] => pyRepr x
  | x :: y :: t => pyRepr x ++ ", " ++ pyReprItems (y :: t)

/-- Comma-separated reprs of dict entries. -/
def pyReprEntries : List (String × PyVal) → String
  | [] => ""
  | [(k, v)] => "'" ++ k ++ "': " ++ pyRepr v
  | (k, v) :: e :: t => "'" ++ k ++ "': " ++ pyRepr v ++ ", " ++ pyReprEntries (e :: t)
end

/-- Python `str` of a value: the string itself for a str, `repr` otherwise. -/
def pyStr : PyVal → String
  | .pstr s => s
  | v => pyRepr v

/-- Python `v.get(key, default)`: succeeds on a dict, raises
AttributeError on anything else. -/
def pyGet (v : PyVal) (key : String) (dflt : PyVal) : Except String PyVal :=
  match v with
  | .pdict d => .ok (dictGetD d key dflt)
  | _ => .error "AttributeError"

/-- Python `len(v)`: characters of a str, items of a list or dict,
TypeError otherwise. -/
def pyLen : PyVal → Except String Nat
  | .pstr s => .ok s.data.length
  | .plist l => .ok l.length
  | .pdict d => .ok d.length
  | _ => .error "TypeError"

/-- Python `v[0]`. -/
def pyIndexZero : PyVal → Except String PyVal
  | .plist (x :: _) => .ok x
  | .plist [] => .error "IndexError"
  | .pstr s =>
      match s.data with
      | c :: _ => .ok (.pstr (String.singleton c))
      | [] => .error "IndexError"
  | .pdict _ => .error "KeyError"
  | _ => .error "TypeError"

/-- Python `format(v, '.2f')`: defined for ints and bools (bool is an int
subclass), raises for everything else. -/
def pyFormat2f : PyVal → Except String String
  | .pint n => .ok (toString n ++ ".00")
  | .pbool true => .ok "1.00"
  | .pbool false => .ok "0.00"
  | .pstr _ => .error "ValueError"
  | _ => .error "TypeError"

mutual
/-- Python `==`.  Scalars compare as in CPython (`True == 1`); lists compare
pointwise.  The code under verification only ever applies `==` to scalar
values (`plan_result.get('status') == 'completed'`), so dicts here compare
as ordered association lists rather than by key set. -/
def pyEq : PyVal → PyVal → Bool
  | .pnone, .pnone => true
  | .pbool a, .pbool b => a = b
  | .pbool a, .pint b => (if a then (1 : Int) else 0) = b
  | .pint a, .pbool b => a = (if b then (1 : Int) else 0)
  | .pint a, .pint b => a = b
  | .pstr a, .pstr b => a = b
  | .plist a, .plist b => pyEqItems a b
  | .pdict a, .pdict b => pyEqEntries a b
  | _, _ => false

/-- Pointwise `==` on list items. -/
def pyEqItems : List PyVal → List PyVal → Bool
  | [], [] => true
  | x :: xs, y :: ys => pyEq x y && pyEqItems xs ys
  | _, _ => false

/-- Pointwise `==` on dict entries. -/
def pyEqEntries : List (String × PyVal) → List (String × PyVal) → Bool
  | [], [] => true
  | (k, v) :: xs, (l, w) :: ys => k = l && pyEq v w && pyEqEntries xs ys
  | _, _ => false
end

/-- `needle.data` is a leading run of `hay.data`. -/
def charsLead : List Char → List Char → Bool
  | [], _ => true
  | _ :: _, [] => false
  | c :: cs, d :: ds => c = d && charsLead cs ds

/-- `needle` occurs contiguously in `hay`. -/
def charsContain (needle : List Char) : List Char → Bool
  | [] => charsLead needle []
  | c :: t => charsLead needle (c :: t) || charsContain needle t

/-- Python `needle in hay` on strings: contiguous substring containment. -/
def pyInStr (needle hay : String) : Bool :=
  charsContain needle.data hay.data

/-- `any(keyword in goal_lower for keyword in keywords)`. -/
def kwHit (keywords : List String) (goalLower : String) : Bool :=
  keywords.any (fun k => pyInStr k goalLower)

/-! ## Orchestrator._infer_agent_sequence (src/core/orchestrator.py lines 117-142) -/

/-- Keyword table of `Orchestrator._infer_agent_sequence`, in source order:
spacex, weather, news, market. -/
def inferSpacexKeywords : List String := ["spacex", "launch", "rocket", "falcon", "dragon"]

def inferWeatherKeywords : List String := ["weather", "delay", "conditions", "wind", "rain"]

def inferNewsKeywords : List String := ["news", "sentiment", "analysis", "media"]

def inferMarketKeywords : List String := ["market", "stock", "trading", "investment", "assets"]

/-- `Orchestrator._infer_agent_sequence`: keyword-match the lower-cased goal
against the four fixed tables, defaulting to `["spacex"]` when nothing
matches. -/
def inferAgentSequence (userGoal : String) : List String :=
  let goalLower := userGoal.toLower
  let agentsToUse : List String := []
  let agentsToUse := if kwHit inferSpacexKeywords goalLower then agentsToUse ++ ["spacex"] else agentsToUse
  let agentsToUse := if kwHit inferWeatherKeywords goalLower then agentsToUse ++ ["weather"] else agentsToUse
  let agentsToUse := if kwHit inferNewsKeywords goalLower then agentsToUse ++ ["news"] else agentsToUse
  let agentsToUse := if kwHit inferMarketKeywords goalLower then agentsToUse ++ ["market"] else agentsToUse
  if agentsToUse.isEmpty then ["spacex"] else agentsToUse

/-! ## PlannerAgent (src/core/planner_agent.py) -/

/-- Keyword table of `PlannerAgent._analyze_goal_requirements`, in source
order: spacex, weather, news, analysis, summary. -/
def plannerSpacexKeywords : List String := ["spacex", "launch", "rocket", "falcon", "dragon"]

def plannerWeatherKeywords : List String := ["weather", "forecast", "temperature", "conditions", "delay"]

def plannerNewsKeywords : List String := ["news", "latest", "trend", "market", "crypto"]

def plannerAnalysisKeywords : List String := ["analyze", "analysis", "correlation", "trend", "insight"]

def plannerSummaryKeywords : List String := ["summary", "summarize", "report", "conclude"]

/-- `PlannerAgent._analyze_goal_requirements` (lines 53-84): keyword-match
the lower-cased goal, append `"summary"` when a summary keyword matches or
more than one agent was already required, then pad a short list (fewer than
two entries) with `"weather"` after `"spacex"` and a final `"summary"`. -/
def analyzeGoalRequirements (goal : String) : List String :=
  let goalLower := goal.toLower
  let requiredAgents : List String := []
  let requiredAgents := if kwHit plannerSpacexKeywords goalLower then requiredAgents ++ ["spacex"] else requiredAgents
  let requiredAgents := if kwHit plannerWeatherKeywords goalLower then requiredAgents ++ ["weather"] else requiredAgents
  let requiredAgents := if kwHit plannerNewsKeywords goalLower then requiredAgents ++ ["news"] else requiredAgents
  let requiredAgents := if kwHit plannerAnalysisKeywords goalLower then requiredAgents ++ ["analysis"] else requiredAgents
  let requiredAgents := if kwHit plannerSummaryKeywords goalLower || requiredAgents.length > 1 then requiredAgents ++ ["summary"] else requiredAgents
  if requiredAgents.length < 2 then
    (if "spacex" ∈ requiredAgents then requiredAgents ++ ["weather"] else requiredAgents) ++ ["summary"]
  else requiredAgents

/-- `PlannerAgent._determine_sequence` (lines 86-114): fixed preference
order over the required set.  The source computes `goal.lower()` but never
uses it; the parameter is kept for fidelity.  `sequence.insert(0, w)` is
cons. -/
def determineSequence (requiredAgents : List String) (goal : String) : List String :=
  let _goalLower := goal.toLower
  let sequence : List String := []
  let sequence := if "spacex" ∈ requiredAgents then sequence ++ ["spacex"] else sequence
  let sequence :=
    if "weather" ∈ requiredAgents ∧ "spacex" ∈ sequence then sequence ++ ["weather"]
    else if "weather" ∈ requiredAgents then "weather" :: sequence
    else sequence
  let sequence := if "news" ∈ requiredAgents then sequence ++ ["news"] else sequence
  let sequence := if "analysis" ∈ requiredAgents then sequence ++ ["analysis"] else sequence
  let sequence := if "summary" ∈ requiredAgents then sequence ++ ["summary"] else sequence
  sequence

/-- The `agent_sequence` of the plan `PlannerAgent.create_plan` builds
(lines 24-51): `_determine_sequence` over `_analyze_goal_requirements`. -/
def createPlanSequence (goal : String) : List String :=
  determineSequence (analyzeGoalRequirements goal) goal

/-- The sequence-refinement loop of `PlannerAgent.refine_plan`
(lines 158-182).  `originalSequence` is `original_plan['agent_sequence']`
and `failedAgents` is the list `[step['agent'] for step in
current_result.get('execution_trace', []) if 'error' in step]`; the loop
keeps agents that did not fail and re-appends the same identifier in every
"alternative approach" branch, then appends `"summary"` when it is not
already present. -/
def refineSequence (originalSequence failedAgents : List String) : List String :=
  let refinedSequence := originalSequence.foldl (fun refinedSequence agent =>
    if agent ∉ failedAgents then refinedSequence ++ [agent]
    else if agent = "spacex" then refinedSequence ++ ["spacex"]
    else if agent = "weather" then refinedSequence ++ ["weather"]
    else refinedSequence ++ [agent]) []
  if "summary" ∈ refinedSequence then refinedSequence
  else refinedSequence ++ ["summary"]

/-- `PlannerAgent.process` (lines 195-202): the fixed completion dict,
with no `agent_sequence` and no `data` entry.  `self.name` is
"PlannerAgent" (set by `BaseAgent.__init__`). -/
def plannerProcessDict : List (String × PyVal) :=
  [("agent", .pstr "PlannerAgent"),
   ("status", .pstr "completed"),
   ("message", .pstr "Planning completed")]

/-! ## Orchestrator.process_goal plan handling (lines 57-84) -/

/-- `Orchestrator._create_default_plan` (lines 108-115). -/
def createDefaultPlan (userGoal : String) : PyVal :=
  .pdict [("agent_sequence", .plist ((inferAgentSequence userGoal).map .pstr)),
          ("plan_type", .pstr "default"),
          ("reasoning", .pstr "Default plan created due to planner issues")]

/-- Lines 57-77 of `Orchestrator.process_goal`: turn the planner's result
(`none` models a planner exception) into an execution plan.  Every branch
that does not find a usable plan falls back to `_create_default_plan`. -/
def selectExecutionPlan (planResult : Option PyVal) (userGoal : String) : PyVal :=
  match planResult with
  | some (.pdict d) =>
      if pyTruthy (dictGetD d "success" (.pbool false)) && hasKey d "data" then
        dictGetD d "data" .pnone
      else if hasKey d "agent_sequence" then .pdict d
      else if pyEq (dictGetD d "status" .pnone) (.pstr "completed") then
        createDefaultPlan userGoal
      else createDefaultPlan userGoal
  | _ => createDefaultPlan userGoal

/-- `v.get(key, default)` on a value statically known to be a dict (a total
variant of `pyGet` for line 79, where `execution_plan` is always a dict). -/
def dictGetOr (v : PyVal) (key : String) (dflt : PyVal) : PyVal :=
  match v with
  | .pdict d => dictGetD d key dflt
  | _ => dflt

/-- The string items of a Python list value (the executed loop iterates
the plan's `agent_sequence`, whose items are agent-name strings). -/
def asStringList : PyVal → List String
  | .plist l => l.filterMap (fun v => match v with | .pstr s => some s | _ => none)
  | _ => []

/-- Lines 57-84 of `Orchestrator.process_goal`: the agent sequence that
reaches `_execute_plan`, falling back to `_infer_agent_sequence` when the
selected plan carries no (or an empty) `agent_sequence`. -/
def processGoalAgentSequence (planResult : Option PyVal) (userGoal : String) : List String :=
  let executionPlan := selectExecutionPlan planResult userGoal
  let agentSequence := dictGetOr executionPlan "agent_sequence" (.plist [])
  if pyTruthy agentSequence then asStringList agentSequence
  else inferAgentSequence userGoal

/-! ## Orchestrator._execute_plan (lines 144-216) -/

/-- The keys of `self.agents` (orchestrator constructor, lines 24-29). -/
def registeredAgents : List String := ["spacex", "weather", "news", "market"]

/-- The `accumulated_data` dict of `_execute_plan`, with its five keys as
fields. -/
structure ExecState where
  goal : String
  agentsExecuted : List String
  agentResults : List (String × PyVal)
  successfulAgents : List String
  failedAgents : List String

/-- Lines 155-161: the initial `accumulated_data`. -/
def initExecState (userGoal : String) : ExecState :=
  { goal := userGoal, agentsExecuted := [], agentResults := [],
    successfulAgents := [], failedAgents := [] }

/-- One call of `agent.process(agent_input)`: it either returns a value or
raises.  The input (`goal`, a copy of `previous_results`, the `context`
reference) is a function of the accumulated state, so a behaviour is
modelled as a function of the agent's name and the state at call time. -/
inductive AgentOutcome where
  | returns : PyVal → AgentOutcome
  | raises : String → AgentOutcome

/-- Lines 183-188: a non-dict result is replaced by a failure dict. -/
def invalidResultDict (agentName : String) (raw : PyVal) : PyVal :=
  .pdict [("success", .pbool false),
          ("error", .pstr ("Agent " ++ agentName ++ " returned invalid result format")),
          ("raw_result", .pstr (pyStr raw))]

/-- Lines 210-214: the result recorded when the agent raises `e`. -/
def raisedResultDict (agentName : String) (e : String) : PyVal :=
  .pdict [("success", .pbool false), ("error", .pstr e), ("agent", .pstr agentName)]

/-- One iteration of the `for agent_name in agent_sequence` loop
(lines 163-214): skip unregistered names; otherwise run the agent, record
its (dict-coerced) result, and append the name to `successful_agents` when
`result.get('success', False)` is truthy, to `failed_agents` otherwise;
a raise records the exception dict and a failure.  The loop never
re-raises, so it continues with the next name in every case. -/
def execStep (behaviour : String → ExecState → AgentOutcome) (st : ExecState)
    (agentName : String) : ExecState :=
  if agentName ∈ registeredAgents then
    match behaviour agentName st with
    | .returns raw =>
        let result := if isDict raw then raw else invalidResultDict agentName raw
        let st1 : ExecState :=
          { st with agentsExecuted := st.agentsExecuted ++ [agentName],
                    agentResults := dictInsert st.agentResults agentName result }
        if pyTruthy (dictGetOr result "success" (.pbool false)) then
          { st1 with successfulAgents := st1.successfulAgents ++ [agentName] }
        else
          { st1 with failedAgents := st1.failedAgents ++ [agentName] }
    | .raises e =>
        { st with agentsExecuted := st.agentsExecuted ++ [agentName],
                  agentResults := dictInsert st.agentResults agentName (raisedResultDict agentName e),
                  failedAgents := st.failedAgents ++ [agentName] }
  else st

/-- `Orchestrator._execute_plan` (lines 144-216). -/
def executePlan (behaviour : String → ExecState → AgentOutcome)
    (agentSequence : List String) (userGoal : String) : ExecState :=
  agentSequence.foldl (execStep behaviour) (initExecState userGoal)

/-! ## Orchestrator._assess_goal_achievement (lines 241-285) -/

/-- `Orchestrator._assess_goal_achievement`: false when nothing was
attempted; false when the goal mentions "spacex" (resp. "market") and that
agent is not among the successful ones; otherwise
`success_rate >= 0.5 and has_minimum_success`, with the float comparison
`len(successful)/total >= 0.5` modelled exactly as `total ≤ 2 * len(successful)`. -/
def assessGoalAchievement (userGoal : String) (executionResult : ExecState) : Bool :=
  let successfulAgents := executionResult.successfulAgents
  let totalAgents := executionResult.agentsExecuted.length
  if totalAgents = 0 then false
  else
    let goalLower := userGoal.toLower
    if pyInStr "spacex" goalLower && !(decide ("spacex" ∈ successfulAgents)) then false
    else if pyInStr "market" goalLower && !(decide ("market" ∈ successfulAgents)) then false
    else decide (totalAgents ≤ 2 * successfulAgents.length) && decide (1 ≤ successfulAgents.length)

/-! ## Orchestrator._create_summary (lines 331-417)

Each section appends its parts to `summary_parts`; a section whose Python
code can raise (a `.get` on a non-dict, an `'.2f'` format of a non-number)
lives in `Except String`. -/

/-- Line 417's fixed fallback string. -/
def fallbackSummary : String :=
  "All agents failed to retrieve data. Please check network connectivity and API configurations."

/-- Lines 337-342: the success/failure overview parts. -/
def overviewParts (successfulAgents failedAgents : List String) : List String :=
  (if !successfulAgents.isEmpty then
    ["Successfully executed: " ++ String.intercalate ", " successfulAgents] else []) ++
  (if !failedAgents.isEmpty then
    ["Failed agents: " ++ String.intercalate ", " failedAgents] else [])

/-- Lines 344-366, the SpaceX section.  Under `isinstance(spacex_data, dict)`
the `isinstance(spacex_data, list)` test is false, so that branch (kept for
fidelity) is dead; a non-dict `spacex_data` appends nothing. -/
def spacexSection (finalData errorSummary : List (String × PyVal))
    (parts : List String) : Except String (List String) :=
  if hasKey finalData "spacex" then
    let spacexData := dictGetD finalData "spacex" .pnone
    if isDict spacexData then
      if isList spacexData then do
        let n ← pyLen spacexData
        if n > 0 then
          let launch ← pyIndexZero spacexData
          let nm ← pyGet launch "name" (.pstr "Unknown")
          let dt ← pyGet launch "date_utc" (.pstr "Unknown date")
          let rocket ← pyGet launch "rocket" (.pdict [])
          let rnm ← pyGet rocket "name" (.pstr "Unknown rocket")
          pure (parts ++ ["Next SpaceX Launch: " ++ pyStr nm ++ " on " ++ pyStr dt ++
            " using " ++ pyStr rnm])
        else pure parts
      else if pyTruthy (.pbool (match spacexData with | .pdict d => hasKey d "launches" | _ => false)) then do
        let launches ← pyGet spacexData "launches" .pnone
        if pyTruthy launches then do
          let n ← pyLen launches
          if n > 0 then
            let launch ← pyIndexZero launches
            let nm ← pyGet launch "name" (.pstr "Unknown")
            let dt ← pyGet launch "date_utc" (.pstr "Unknown date")
            pure (parts ++ ["Next SpaceX Launch: " ++ pyStr nm ++ " on " ++ pyStr dt])
          else pure parts
        else pure parts
      else pure (parts ++ ["SpaceX data retrieved successfully"])
    else pure parts
  else if hasKey errorSummary "spacex" then
    pure (parts ++ ["SpaceX data error: " ++ pyStr (dictGetD errorSummary "spacex" .pnone)])
  else pure parts

/-- Lines 368-387, the weather section. -/
def weatherSection (finalData errorSummary : List (String × PyVal))
    (parts : List String) : Except String (List String) :=
  if hasKey finalData "weather" then
    let weatherData := dictGetD finalData "weather" .pnone
    match weatherData with
    | .pdict d =>
        if hasKey d "current" then do
          let weather := dictGetD d "current" .pnone
          let desc ← pyGet weather "description" (.pstr "Unknown")
          let temp ← pyGet weather "temp" (.pstr "N/A")
          let wind ← pyGet weather "wind_speed" (.pstr "N/A")
          let parts := parts ++ ["Weather conditions: " ++ pyStr desc ++ " (" ++
            pyStr temp ++ "Â°C, wind: " ++ pyStr wind ++ " m/s)"]
          if hasKey d "launch_delay_risk" then
            let risk := dictGetD d "launch_delay_risk" .pnone
            let lvl ← pyGet risk "level" (.pstr "Unknown")
            pure (parts ++ ["Launch delay risk: " ++ pyStr lvl])
          else pure parts
        else pure (parts ++ ["Weather data retrieved successfully"])
    | _ => pure parts
  else if hasKey errorSummary "weather" then
    pure (parts ++ ["Weather data error: " ++ pyStr (dictGetD errorSummary "weather" .pnone)])
  else pure parts

/-- Lines 389-399, the news section.  `news_data['sentiment_analysis']`
feeds a `.get`, which raises AttributeError when that value is not a
dict. -/
def newsSection (finalData errorSummary : List (String × PyVal))
    (parts : List String) : Except String (List String) :=
  if hasKey finalData "news" then
    let newsData := dictGetD finalData "news" .pnone
    match newsData with
    | .pdict d =>
        if hasKey d "sentiment_analysis" then do
          let sentiment ← pyGet (dictGetD d "sentiment_analysis" .pnone)
            "overall_sentiment" (.pstr "Unknown")
          pure (parts ++ ["News sentiment: " ++ pyStr sentiment])
        else pure (parts ++ ["News data retrieved successfully"])
    | _ => pure parts
  else if hasKey errorSummary "news" then
    pure (parts ++ ["News data error: " ++ pyStr (dictGetD errorSummary "news" .pnone)])
  else pure parts

/-- Lines 401-412, the market section.  `market_sentiment.get` raises on a
non-dict, and `f"{score:.2f}"` raises on a non-numeric score. -/
def marketSection (finalData errorSummary : List (String × PyVal))
    (parts : List String) : Except String (List String) :=
  if hasKey finalData "market" then
    let marketData := dictGetD finalData "market" .pnone
    match marketData with
    | .pdict d =>
        if hasKey d "market_sentiment" then do
          let marketSentiment := dictGetD d "market_sentiment" .pnone
          let score ← pyGet marketSentiment "overall_score" (.pint 0)
          let formatted ← pyFormat2f score
          pure (parts ++ ["Market sentiment score: " ++ formatted])
        else pure (parts ++ ["Market data retrieved successfully"])
    | _ => pure parts
  else if hasKey errorSummary "market" then
    pure (parts ++ ["Market data error: " ++ pyStr (dictGetD errorSummary "market" .pnone)])
  else pure parts

/-- `Orchestrator._create_summary` (lines 331-417): build `summary_parts`
section by section, then join with " | ", or return the fallback string
when no part was produced.  An uncaught Python exception is the
`.error` case. -/
def createSummary (userGoal : String) (finalData errorSummary : List (String × PyVal))
    (successfulAgents failedAgents : List String) : Except String String := do
  let _ := userGoal
  let parts := overviewParts successfulAgents failedAgents
  let parts ← spacexSection finalData errorSummary parts
  let parts ← weatherSection finalData errorSummary parts
  let parts ← newsSection finalData errorSummary parts
  let parts ← marketSection finalData errorSummary parts
  if !parts.isEmpty then pure (String.intercalate " | " parts)
  else pure fallbackSummary

/-! ## Theorems -/

/-- C1: `_assess_goal_achievement` returns true iff the attempted list is
non-empty, at least one agent succeeded, `|succeeded|/|attempted| ≥ 0.5`,
and whenever the lower-cased goal contains "spacex" (resp. "market") the
spacex (resp. market) identifier is among the successful agents. -/
theorem assessGoalAchievement_iff (userGoal : String) (st : ExecState) :
    assessGoalAchievement userGoal st = true ↔
      (st.agentsExecuted ≠ [] ∧
       1 ≤ st.successfulAgents.length ∧
       st.agentsExecuted.length ≤ 2 * st.successfulAgents.length ∧
       (pyInStr "spacex" userGoal.toLower = true → "spacex" ∈ st.successfulAgents) ∧
       (pyInStr "market" userGoal.toLower = true → "market" ∈ st.successfulAgents)) := by
  unfold assessGoalAchievement
  by_cases h0 : st.agentsExecuted.length = 0
  · simp [h0, List.length_eq_zero.mp h0]
  · have hne : st.agentsExecuted ≠ [] := by
      intro h; exact h0 (by simp [h])
    by_cases hs : pyInStr "spacex" userGoal.toLower = true <;>
    by_cases hm : pyInStr "market" userGoal.toLower = true <;>
    by_cases hsm : "spacex" ∈ st.successfulAgents <;>
    by_cases hmm : "market" ∈ st.successfulAgents <;>
      simp_all <;> omega

/-- Case description of one loop iteration of `_execute_plan`: an
unregistered name changes nothing; a registered one is appended to
`agents_executed`, gets exactly one recorded result, and lands in exactly
one of `successful_agents` / `failed_agents`. -/
theorem execStep_spec (b : String → ExecState → AgentOutcome) (st : ExecState) (a : String) :
    (a ∉ registeredAgents ∧ execStep b st a = st) ∨
    (a ∈ registeredAgents ∧ ∃ r : PyVal,
      (execStep b st a).agentsExecuted = st.agentsExecuted ++ [a] ∧
      (execStep b st a).agentResults = dictInsert st.agentResults a r ∧
      (((execStep b st a).successfulAgents = st.successfulAgents ++ [a] ∧
        (execStep b st a).failedAgents = st.failedAgents) ∨
       ((execStep b st a).successfulAgents = st.successfulAgents ∧
        (execStep b st a).failedAgents = st.failedAgents ++ [a])) ∧
      (execStep b st a).goal = st.goal) := by
  by_cases h : a ∈ registeredAgents
  · refine Or.inr ⟨h, ?_⟩
    unfold execStep
    rw [if_pos h]
    rcases hb : b a st with raw | e
    · simp only [hb]
      by_cases ht : pyTruthy (dictGetOr (if isDict raw then raw else invalidResultDict a raw)
          "success" (.pbool false)) = true
      · refine ⟨if isDict raw then raw else invalidResultDict a raw,
          ?_, ?_, Or.inl ⟨?_, ?_⟩, ?_⟩ <;> simp [ht]
      · rw [Bool.not_eq_true] at ht
        refine ⟨if isDict raw then raw else invalidResultDict a raw,
          ?_, ?_, Or.inr ⟨?_, ?_⟩, ?_⟩ <;> simp [ht]
    · simp only [hb]
      refine ⟨raisedResultDict a e, ?_, ?_, Or.inr ⟨?_, ?_⟩, ?_⟩ <;> simp
  · exact Or.inl ⟨h, by unfold execStep; rw [if_neg h]⟩

/-- Updating key `k` leaves the key list unchanged except that a fresh key
is appended. -/
theorem dictInsert_map_fst (d : List (String × PyVal)) (k : String) (v : PyVal)
    (h : k ∉ d.map Prod.fst) :
    (dictInsert d k v).map Prod.fst = d.map Prod.fst ++ [k] := by
  induction d with
  | nil => simp [dictInsert]
  | cons p t ih =>
      obtain ⟨k', v'⟩ := p
      simp only [List.map_cons, List.mem_cons] at h
      push_neg at h
      rw [dictInsert, if_neg (Ne.symm h.1)]
      simp [ih h.2]

/-- Lookup after update: the updated key maps to the new value, every
other key is untouched. -/
theorem dictLookup_dictInsert (d : List (String × PyVal)) (k : String) (v : PyVal) (a : String) :
    dictLookup (dictInsert d k v) a = if k = a then some v else dictLookup d a := by
  induction d with
  | nil => simp [dictInsert, dictLookup]
  | cons p t ih =>
      obtain ⟨k', w⟩ := p
      by_cases hk : k' = k
      · subst hk
        rw [dictInsert, if_pos rfl]
        by_cases ha : k' = a <;> simp [dictLookup, ha]
      · rw [dictInsert, if_neg hk]
        by_cases ha : k' = a
        · subst ha
          have hka : ¬ k = k' := fun h => hk h.symm
          simp [dictLookup, hka]
        · simp [dictLookup, ha, ih]

/-- The invariant of the claim on `_execute_plan`'s accumulated state:
exactly one recorded result per attempted identifier (the result keys are
the attempted list), the successful and failed lists partition the
attempted identifiers (their union is the attempted set and no identifier
is in both), and each of the three lists is duplicate-free (each agent
invoked at most once). -/
def ExecInv (st : ExecState) : Prop :=
  st.agentResults.map Prod.fst = st.agentsExecuted ∧
  (∀ a, (a ∈ st.successfulAgents ∨ a ∈ st.failedAgents) ↔ a ∈ st.agentsExecuted) ∧
  (∀ a, ¬(a ∈ st.successfulAgents ∧ a ∈ st.failedAgents)) ∧
  st.agentsExecuted.Nodup ∧ st.successfulAgents.Nodup ∧ st.failedAgents.Nodup

/-- One loop iteration on a name not yet executed preserves the
invariant. -/
theorem execStep_inv (b : String → ExecState → AgentOutcome) (st : ExecState) (a : String)
    (hfresh : a ∉ st.agentsExecuted) (hinv : ExecInv st) : ExecInv (execStep b st a) := by
  obtain ⟨hkeys, hmem, hdisj, hnde, hnds, hndf⟩ := hinv
  rcases execStep_spec b st a with ⟨_, heq⟩ | ⟨_, r, hex, hres, hsf, _⟩
  · rw [heq]; exact ⟨hkeys, hmem, hdisj, hnde, hnds, hndf⟩
  · have hsfresh : a ∉ st.successfulAgents := fun h => hfresh ((hmem a).mp (Or.inl h))
    have hffresh : a ∉ st.failedAgents := fun h => hfresh ((hmem a).mp (Or.inr h))
    refine ⟨?_, ?_, ?_, ?_, ?_, ?_⟩
    · rw [hres, dictInsert_map_fst _ _ _ (by rw [hkeys]; exact hfresh), hkeys, hex]
    · intro x
      rcases hsf with ⟨hs, hf⟩ | ⟨hs, hf⟩ <;> rw [hs, hf, hex] <;>
        simp only [List.mem_append, List.mem_singleton] <;>
        have := hmem x <;> tauto
    · intro x hx
      rcases hsf with ⟨hs, hf⟩ | ⟨hs, hf⟩ <;> rw [hs, hf] at hx <;>
        simp only [List.mem_append, List.mem_singleton] at hx
      · rcases hx.1 with h | h
        · exact hdisj x ⟨h, hx.2⟩
        · subst h; exact hffresh hx.2
      · rcases hx.2 with h | h
        · exact hdisj x ⟨hx.1, h⟩
        · subst h; exact hsfresh hx.1
    · rw [hex]; simp [List.nodup_append, hnde, hfresh]
    · rcases hsf with ⟨hs, _⟩ | ⟨hs, _⟩ <;> rw [hs]
      · simp [List.nodup_append, hnds, hsfresh]
      · exact hnds
    · rcases hsf with ⟨_, hf⟩ | ⟨_, hf⟩ <;> rw [hf]
      · exact hndf
      · simp [List.nodup_append, hndf, hffresh]

/-- Folding the loop over a duplicate-free sequence of names none of which
was executed yet preserves the invariant. -/
theorem foldl_execStep_inv (b : String → ExecState → AgentOutcome) :
    ∀ (seq : List String) (st : ExecState), ExecInv st →
      (∀ x ∈ seq, x ∉ st.agentsExecuted) → seq.Nodup →
      ExecInv (seq.foldl (execStep b) st)
  | [], st, hinv, _, _ => hinv
  | a :: rest, st, hinv, hfresh, hnd => by
      rw [List.foldl_cons]
      apply foldl_execStep_inv b rest
      · exact execStep_inv b st a (hfresh a (by simp)) hinv
      · intro x hx
        rcases execStep_spec b st a with ⟨_, heq⟩ | ⟨_, r, hex, _, _, _⟩
        · rw [heq]; exact hfresh x (List.mem_cons_of_mem _ hx)
        · rw [hex]
          simp only [List.mem_append, List.mem_singleton]
          rintro (h | h)
          · exact hfresh x (List.mem_cons_of_mem _ hx) h
          · subst h; exact (List.nodup_cons.mp hnd).1 hx
      · exact (List.nodup_cons.mp hnd).2

/-- C2 (amended): for a duplicate-free agent sequence, `_execute_plan`
records exactly one result per attempted identifier, each attempted
identifier lands in exactly one of the successful/failed lists, the two
lists are disjoint with union the attempted set, and no agent is invoked
twice (`ExecInv`). -/
theorem executePlan_partition (behaviour : String → ExecState → AgentOutcome)
    (agentSequence : List String) (userGoal : String) (hnd : agentSequence.Nodup) :
    ExecInv (executePlan behaviour agentSequence userGoal) := by
  apply foldl_execStep_inv
  · refine ⟨rfl, ?_, ?_, ?_, ?_, ?_⟩ <;> simp [initExecState]
  · intro x _
    simp [initExecState]
  · exact hnd

/-- A behaviour that succeeds on its first call and fails afterwards, as a
real agent may (its input embeds the accumulated results). -/
def flakyBehaviour : String → ExecState → AgentOutcome :=
  fun _ st => .returns (.pdict [("success", .pbool st.agentsExecuted.isEmpty)])

/-- C2 (counterexample): on the duplicated sequence
`["spacex", "spacex"]` with a behaviour that succeeds once then fails, the
spacex identifier ends up in both the successful and the failed list, so
the claim's disjointness fails for sequences with duplicates. -/
theorem executePlan_partition_counterexample :
    "spacex" ∈ (executePlan flakyBehaviour ["spacex", "spacex"] "g").successfulAgents ∧
    "spacex" ∈ (executePlan flakyBehaviour ["spacex", "spacex"] "g").failedAgents := by
  constructor <;> decide

/-- C2 (witness): the amended theorem applied to the duplicate-free
sequence `["spacex", "weather"]`. -/
theorem executePlan_partition_witness :
    List.Nodup ["spacex", "weather"] ∧
    ExecInv (executePlan flakyBehaviour ["spacex", "weather"] "g") :=
  ⟨by decide, executePlan_partition flakyBehaviour ["spacex", "weather"] "g" (by decide)⟩

/-- The executed list after the loop: the input sequence filtered to the
registered agents, whatever the behaviours do. -/
theorem foldl_execStep_executed (b : String → ExecState → AgentOutcome) :
    ∀ (seq : List String) (st : ExecState),
      (seq.foldl (execStep b) st).agentsExecuted =
        st.agentsExecuted ++ seq.filter (fun a => decide (a ∈ registeredAgents))
  | [], st => by simp
  | a :: rest, st => by
      rw [List.foldl_cons, foldl_execStep_executed b rest, List.filter_cons]
      rcases execStep_spec b st a with ⟨hreg, heq⟩ | ⟨hreg, r, hex, _, _, _⟩
      · rw [heq]; simp [hreg]
      · rw [hex]; simp [hreg]

/-- The loop keeps "one recorded result iff executed" at every state. -/
theorem foldl_execStep_lookup (b : String → ExecState → AgentOutcome) :
    ∀ (seq : List String) (st : ExecState),
      (∀ a, a ∈ st.agentsExecuted ↔ (dictLookup st.agentResults a).isSome) →
      ∀ a, a ∈ (seq.foldl (execStep b) st).agentsExecuted ↔
        (dictLookup (seq.foldl (execStep b) st).agentResults a).isSome
  | [], _, h => h
  | x :: rest, st, h => by
      rw [List.foldl_cons]
      apply foldl_execStep_lookup b rest
      intro a
      rcases execStep_spec b st x with ⟨_, heq⟩ | ⟨_, r, hex, hres, _, _⟩
      · rw [heq]; exact h a
      · rw [hex, hres, dictLookup_dictInsert]
        by_cases hxa : x = a
        · simp [hxa]
        · simp only [List.mem_append, List.mem_singleton, if_neg hxa]
          rw [← h a]
          constructor
          · rintro (ha | ha)
            · exact ha
            · exact absurd ha.symm hxa
          · exact Or.inl

/-- C3: no short-circuit in `_execute_plan` — for every behaviour of the
agents (failures and raises included), the executed list is exactly the
input sequence restricted to registered identifiers, every registered
identifier of the sequence is invoked, and an identifier is recorded in
`agent_results` exactly when it was executed. -/
theorem executePlan_no_short_circuit (behaviour : String → ExecState → AgentOutcome)
    (agentSequence : List String) (userGoal : String) :
    (executePlan behaviour agentSequence userGoal).agentsExecuted =
      agentSequence.filter (fun a => decide (a ∈ registeredAgents)) ∧
    (∀ a, a ∈ agentSequence → a ∈ registeredAgents →
      a ∈ (executePlan behaviour agentSequence userGoal).agentsExecuted) ∧
    (∀ a, a ∈ (executePlan behaviour agentSequence userGoal).agentsExecuted ↔
      (dictLookup (executePlan behaviour agentSequence userGoal).agentResults a).isSome) := by
  have hexec := foldl_execStep_executed behaviour agentSequence (initExecState userGoal)
  rw [show (initExecState userGoal).agentsExecuted = [] from rfl, List.nil_append] at hexec
  refine ⟨hexec, ?_, ?_⟩
  · intro a ha hreg
    unfold executePlan
    rw [hexec]
    exact List.mem_filter.mpr ⟨ha, by simpa using hreg⟩
  · exact foldl_execStep_lookup behaviour agentSequence (initExecState userGoal)
      (by intro a; simp [initExecState, dictLookup])

/-- A matched keyword set puts its agent into
`_analyze_goal_requirements`' result. -/
theorem analyze_mem (goal : String) :
    (kwHit plannerSpacexKeywords goal.toLower = true → "spacex" ∈ analyzeGoalRequirements goal) ∧
    (kwHit plannerWeatherKeywords goal.toLower = true → "weather" ∈ analyzeGoalRequirements goal) ∧
    (kwHit plannerNewsKeywords goal.toLower = true → "news" ∈ analyzeGoalRequirements goal) ∧
    (kwHit plannerAnalysisKeywords goal.toLower = true → "analysis" ∈ analyzeGoalRequirements goal) ∧
    (kwHit plannerSummaryKeywords goal.toLower = true → "summary" ∈ analyzeGoalRequirements goal) := by
  unfold analyzeGoalRequirements
  by_cases h1 : kwHit plannerSpacexKeywords goal.toLower = true <;>
  by_cases h2 : kwHit plannerWeatherKeywords goal.toLower = true <;>
  by_cases h3 : kwHit plannerNewsKeywords goal.toLower = true <;>
  by_cases h4 : kwHit plannerAnalysisKeywords goal.toLower = true <;>
  by_cases h5 : kwHit plannerSummaryKeywords goal.toLower = true <;>
  simp [h1, h2, h3, h4, h5]

/-- A required agent stays in `_determine_sequence`'s output. -/
theorem determine_mem (requiredAgents : List String) (goal : String) :
    ("spacex" ∈ requiredAgents → "spacex" ∈ determineSequence requiredAgents goal) ∧
    ("weather" ∈ requiredAgents → "weather" ∈ determineSequence requiredAgents goal) ∧
    ("news" ∈ requiredAgents → "news" ∈ determineSequence requiredAgents goal) ∧
    ("analysis" ∈ requiredAgents → "analysis" ∈ determineSequence requiredAgents goal) ∧
    ("summary" ∈ requiredAgents → "summary" ∈ determineSequence requiredAgents goal) := by
  unfold determineSequence
  by_cases h1 : "spacex" ∈ requiredAgents <;>
  by_cases h2 : "weather" ∈ requiredAgents <;>
  by_cases h3 : "news" ∈ requiredAgents <;>
  by_cases h4 : "analysis" ∈ requiredAgents <;>
  by_cases h5 : "summary" ∈ requiredAgents <;>
  simp [h1, h2, h3, h4, h5]

/-- A matched keyword set puts its agent into
`_infer_agent_sequence`'s result. -/
theorem infer_mem (goal : String) :
    (kwHit inferSpacexKeywords goal.toLower = true → "spacex" ∈ inferAgentSequence goal) ∧
    (kwHit inferWeatherKeywords goal.toLower = true → "weather" ∈ inferAgentSequence goal) ∧
    (kwHit inferNewsKeywords goal.toLower = true → "news" ∈ inferAgentSequence goal) ∧
    (kwHit inferMarketKeywords goal.toLower = true → "market" ∈ inferAgentSequence goal) := by
  unfold inferAgentSequence
  by_cases h1 : kwHit inferSpacexKeywords goal.toLower = true <;>
  by_cases h2 : kwHit inferWeatherKeywords goal.toLower = true <;>
  by_cases h3 : kwHit inferNewsKeywords goal.toLower = true <;>
  by_cases h4 : kwHit inferMarketKeywords goal.toLower = true <;>
  simp [h1, h2, h3, h4]

/-- C6: whenever the lower-cased goal matches a keyword of an agent's
fixed keyword set, that agent appears in the Planner's
`create_plan` sequence; likewise for the orchestrator's fallback
`_infer_agent_sequence` with its own keyword table. -/
theorem keyword_implies_agent (goal : String) :
    (kwHit plannerSpacexKeywords goal.toLower = true → "spacex" ∈ createPlanSequence goal) ∧
    (kwHit plannerWeatherKeywords goal.toLower = true → "weather" ∈ createPlanSequence goal) ∧
    (kwHit plannerNewsKeywords goal.toLower = true → "news" ∈ createPlanSequence goal) ∧
    (kwHit plannerAnalysisKeywords goal.toLower = true → "analysis" ∈ createPlanSequence goal) ∧
    (kwHit plannerSummaryKeywords goal.toLower = true → "summary" ∈ createPlanSequence goal) ∧
    (kwHit inferSpacexKeywords goal.toLower = true → "spacex" ∈ inferAgentSequence goal) ∧
    (kwHit inferWeatherKeywords goal.toLower = true → "weather" ∈ inferAgentSequence goal) ∧
    (kwHit inferNewsKeywords goal.toLower = true → "news" ∈ inferAgentSequence goal) ∧
    (kwHit inferMarketKeywords goal.toLower = true → "market" ∈ inferAgentSequence goal) := by
  obtain ⟨a1, a2, a3, a4, a5⟩ := analyze_mem goal
  obtain ⟨d1, d2, d3, d4, d5⟩ := determine_mem (analyzeGoalRequirements goal) goal
  obtain ⟨i1, i2, i3, i4⟩ := infer_mem goal
  exact ⟨fun h => d1 (a1 h), fun h => d2 (a2 h), fun h => d3 (a3 h),
    fun h => d4 (a4 h), fun h => d5 (a5 h), i1, i2, i3, i4⟩

/-- C7: the fixed preference order of `_determine_sequence` over the
requirements of any goal — spacex before weather; weather first when
spacex is absent; news after spacex and weather; analysis after spacex,
weather and news; summary last whenever present. -/
theorem plannerSequence_order (goal : String) :
    ("spacex" ∈ createPlanSequence goal → "weather" ∈ createPlanSequence goal →
      (createPlanSequence goal).indexOf "spacex" < (createPlanSequence goal).indexOf "weather") ∧
    ("weather" ∈ createPlanSequence goal → "spacex" ∉ createPlanSequence goal →
      (createPlanSequence goal).head? = some "weather") ∧
    ("news" ∈ createPlanSequence goal →
      ("spacex" ∈ createPlanSequence goal →
        (createPlanSequence goal).indexOf "spacex" < (createPlanSequence goal).indexOf "news") ∧
      ("weather" ∈ createPlanSequence goal →
        (createPlanSequence goal).indexOf "weather" < (createPlanSequence goal).indexOf "news")) ∧
    ("analysis" ∈ createPlanSequence goal →
      ("spacex" ∈ createPlanSequence goal →
        (createPlanSequence goal).indexOf "spacex" < (createPlanSequence goal).indexOf "analysis") ∧
      ("weather" ∈ createPlanSequence goal →
        (createPlanSequence goal).indexOf "weather" < (createPlanSequence goal).indexOf "analysis") ∧
      ("news" ∈ createPlanSequence goal →
        (createPlanSequence goal).indexOf "news" < (createPlanSequence goal).indexOf "analysis")) ∧
    ("summary" ∈ createPlanSequence goal →
      (createPlanSequence goal).getLast? = some "summary") := by
  unfold createPlanSequence determineSequence
  by_cases h1 : "spacex" ∈ analyzeGoalRequirements goal <;>
  by_cases h2 : "weather" ∈ analyzeGoalRequirements goal <;>
  by_cases h3 : "news" ∈ analyzeGoalRequirements goal <;>
  by_cases h4 : "analysis" ∈ analyzeGoalRequirements goal <;>
  by_cases h5 : "summary" ∈ analyzeGoalRequirements goal <;>
  simp [h1, h2, h3, h4, h5]

/-- `_infer_agent_sequence` never returns the empty list. -/
theorem infer_ne_nil (goal : String) : inferAgentSequence goal ≠ [] := by
  unfold inferAgentSequence
  by_cases h1 : kwHit inferSpacexKeywords goal.toLower = true <;>
  by_cases h2 : kwHit inferWeatherKeywords goal.toLower = true <;>
  by_cases h3 : kwHit inferNewsKeywords goal.toLower = true <;>
  by_cases h4 : kwHit inferMarketKeywords goal.toLower = true <;>
  simp [h1, h2, h3, h4]

/-- `_analyze_goal_requirements` always requires the summary agent. -/
theorem analyze_summary_mem (goal : String) : "summary" ∈ analyzeGoalRequirements goal := by
  unfold analyzeGoalRequirements
  by_cases h1 : kwHit plannerSpacexKeywords goal.toLower = true <;>
  by_cases h2 : kwHit plannerWeatherKeywords goal.toLower = true <;>
  by_cases h3 : kwHit plannerNewsKeywords goal.toLower = true <;>
  by_cases h4 : kwHit plannerAnalysisKeywords goal.toLower = true <;>
  by_cases h5 : kwHit plannerSummaryKeywords goal.toLower = true <;>
  simp [h1, h2, h3, h4, h5]

/-- When summary is required, `_determine_sequence` ends non-empty. -/
theorem determine_ne_nil_of_summary (requiredAgents : List String) (goal : String)
    (h : "summary" ∈ requiredAgents) : determineSequence requiredAgents goal ≠ [] := by
  unfold determineSequence
  simp [h]

/-- C8: for every goal — also one matching no keyword — the Planner's
plan sequence and the orchestrator's fallback inference are non-empty; an
empty plan is never produced. -/
theorem plan_never_empty (goal : String) :
    createPlanSequence goal ≠ [] ∧ inferAgentSequence goal ≠ [] :=
  ⟨determine_ne_nil_of_summary _ _ (analyze_summary_mem goal), infer_ne_nil goal⟩

/-- The refinement loop of `refine_plan` re-appends every agent of the
original sequence verbatim. -/
theorem refineSequence_eq (originalSequence failedAgents : List String) :
    refineSequence originalSequence failedAgents =
      (if "summary" ∈ originalSequence then originalSequence
       else originalSequence ++ ["summary"]) := by
  unfold refineSequence
  suffices h : ∀ (l acc : List String), List.foldl (fun refinedSequence agent =>
      if agent ∉ failedAgents then refinedSequence ++ [agent]
      else if agent = "spacex" then refinedSequence ++ ["spacex"]
      else if agent = "weather" then refinedSequence ++ ["weather"]
      else refinedSequence ++ [agent]) acc l = acc ++ l by
    rw [h, List.nil_append]
  intro l
  induction l with
  | nil => intro acc; simp
  | cons a t ih =>
      intro acc
      rw [List.foldl_cons]
      have hstep : (if a ∉ failedAgents then acc ++ [a]
          else if a = "spacex" then acc ++ ["spacex"]
          else if a = "weather" then acc ++ ["weather"]
          else acc ++ [a]) = acc ++ [a] := by
        by_cases hf : a ∉ failedAgents
        · simp [hf]
        · by_cases hs : a = "spacex"
          · subst hs; simp [hf]
          · by_cases hw : a = "weather"
            · subst hw; simp [hf, hs]
            · simp [hf, hs, hw]
      rw [hstep, ih]
      simp

/-- C9 (amended): `refine_plan` rebuilds the original sequence
element-for-element (previously-successful agents kept in place,
previously-failed ones re-attempted verbatim) and appends `"summary"`
exactly when the original lacked it; so `"summary"` is always a member of
the refined sequence, and it is the last element whenever the original
sequence did not already contain it elsewhere. -/
theorem refineSequence_spec (originalSequence failedAgents : List String) :
    refineSequence originalSequence failedAgents =
      (if "summary" ∈ originalSequence then originalSequence
       else originalSequence ++ ["summary"]) ∧
    "summary" ∈ refineSequence originalSequence failedAgents ∧
    ("summary" ∉ originalSequence →
      (refineSequence originalSequence failedAgents).getLast? = some "summary") := by
  have he := refineSequence_eq originalSequence failedAgents
  refine ⟨he, ?_, ?_⟩
  · rw [he]
    by_cases h : "summary" ∈ originalSequence <;> simp [h]
  · intro h
    rw [he, if_neg h]
    exact List.getLast?_concat _

/-- C9 (counterexample): a plan whose original sequence holds `"summary"`
away from the tail refines to itself, so the refined sequence does not end
with `"summary"` as the claim requires. -/
theorem refineSequence_tail_counterexample :
    refineSequence ["summary", "spacex"] [] = ["summary", "spacex"] ∧
    (refineSequence ["summary", "spacex"] []).getLast? ≠ some "summary" := by
  constructor <;> decide

/-- The string items of a list of agent-name strings. -/
theorem asStringList_map_pstr : ∀ (l : List String),
    asStringList (.plist (l.map PyVal.pstr)) = l
  | [] => rfl
  | s :: t => by
      have ih := asStringList_map_pstr t
      simp only [asStringList] at ih ⊢
      simp only [List.map_cons, List.filterMap_cons]
      rw [ih]

/-- C10: `PlannerAgent.process` returns the fixed completion dict with no
`agent_sequence` and no `data` key, so `process_goal` always builds the
default plan and the sequence it executes is exactly
`_infer_agent_sequence(goal)`. -/
theorem plannerProcess_runs_inferred_sequence (goal : String) :
    hasKey plannerProcessDict "agent_sequence" = false ∧
    hasKey plannerProcessDict "data" = false ∧
    selectExecutionPlan (some (.pdict plannerProcessDict)) goal = createDefaultPlan goal ∧
    processGoalAgentSequence (some (.pdict plannerProcessDict)) goal = inferAgentSequence goal := by
  refine ⟨rfl, rfl, rfl, ?_⟩
  unfold processGoalAgentSequence
  have hplan : selectExecutionPlan (some (.pdict plannerProcessDict)) goal
      = createDefaultPlan goal := rfl
  rw [hplan]
  dsimp only
  have hseq : dictGetOr (createDefaultPlan goal) "agent_sequence" (.plist [])
      = .plist ((inferAgentSequence goal).map .pstr) := rfl
  rw [hseq]
  have htruthy : pyTruthy (.plist ((inferAgentSequence goal).map .pstr)) = true := by
    simp [pyTruthy, List.isEmpty_iff, infer_ne_nil goal]
  simp only [htruthy, if_true]
  exact asStringList_map_pstr _

/-- With no per-agent data, the SpaceX section only consults the error
summary and appends pure parts. -/
theorem spacexSection_nil_finalData (errorSummary : List (String × PyVal))
    (parts : List String) :
    ∃ extra, spacexSection [] errorSummary parts = .ok (parts ++ extra) := by
  unfold spacexSection
  by_cases h : (dictLookup errorSummary "spacex").isSome = true
  · exact ⟨["SpaceX data error: " ++ pyStr (dictGetD errorSummary "spacex" .pnone)],
      by simp [hasKey, dictLookup, h, pure, Except.pure]⟩
  · exact ⟨[], by simp [hasKey, dictLookup, h, pure, Except.pure]⟩

/-- With no per-agent data, the weather section only consults the error
summary and appends pure parts. -/
theorem weatherSection_nil_finalData (errorSummary : List (String × PyVal))
    (parts : List String) :
    ∃ extra, weatherSection [] errorSummary parts = .ok (parts ++ extra) := by
  unfold weatherSection
  by_cases h : (dictLookup errorSummary "weather").isSome = true
  · exact ⟨["Weather data error: " ++ pyStr (dictGetD errorSummary "weather" .pnone)],
      by simp [hasKey, dictLookup, h, pure, Except.pure]⟩
  · exact ⟨[], by simp [hasKey, dictLookup, h, pure, Except.pure]⟩

/-- With no per-agent data, the news section only consults the error
summary and appends pure parts. -/
theorem newsSection_nil_finalData (errorSummary : List (String × PyVal))
    (parts : List String) :
    ∃ extra, newsSection [] errorSummary parts = .ok (parts ++ extra) := by
  unfold newsSection
  by_cases h : (dictLookup errorSummary "news").isSome = true
  · exact ⟨["News data error: " ++ pyStr (dictGetD errorSummary "news" .pnone)],
      by simp [hasKey, dictLookup, h, pure, Except.pure]⟩
  · exact ⟨[], by simp [hasKey, dictLookup, h, pure, Except.pure]⟩

/-- With no per-agent data, the market section only consults the error
summary and appends pure parts. -/
theorem marketSection_nil_finalData (errorSummary : List (String × PyVal))
    (parts : List String) :
    ∃ extra, marketSection [] errorSummary parts = .ok (parts ++ extra) := by
  unfold marketSection
  by_cases h : (dictLookup errorSummary "market").isSome = true
  · exact ⟨["Market data error: " ++ pyStr (dictGetD errorSummary "market" .pnone)],
      by simp [hasKey, dictLookup, h, pure, Except.pure]⟩
  · exact ⟨[], by simp [hasKey, dictLookup, h, pure, Except.pure]⟩

/-- `" | ".join` of a non-empty parts list extends its first part. -/
theorem intercalate_cons_exists (sep a : String) (l : List String) :
    ∃ t, String.intercalate sep (a :: l) = a ++ t := by
  suffices h : ∀ (as : List String) (acc : String), ∃ t, String.intercalate.go acc sep as = acc ++ t by
    obtain ⟨t, ht⟩ := h l a
    exact ⟨t, by rw [String.intercalate, ht]⟩
  intro as
  induction as with
  | nil => intro acc; exact ⟨"", by rw [String.intercalate.go, String.append_empty]⟩
  | cons x xs ih =>
      intro acc
      obtain ⟨t, ht⟩ := ih (acc ++ sep ++ x)
      exact ⟨sep ++ x ++ t, by
        rw [String.intercalate.go, ht]
        simp [String.append_assoc]⟩

/-- No extension of the failed-agents overview equals the fallback
string. -/
theorem failed_overview_ne_fallback (u : String) :
    "Failed agents: " ++ u ≠ fallbackSummary := by
  intro h
  have hd : ("Failed agents: " ++ u).data = fallbackSummary.data := by rw [h]
  rw [String.data_append] at hd
  have htake := congrArg (List.take ("Failed agents: ".data.length)) hd
  rw [List.take_left] at htake
  exact absurd htake (by decide)

/-- C4 (amended): when every attempted agent failed (no successful agent,
a non-empty failed list, hence no per-agent data), `_create_summary`
returns — without raising — the " | "-joined parts beginning with the
failed-agents overview, a string different from the fixed fallback; the
fallback is produced only when no summary part arises at all. -/
theorem createSummary_all_failed (goal : String) (errorSummary : List (String × PyVal))
    (failedAgents : List String) (h : failedAgents ≠ []) :
    ∃ rest, createSummary goal [] errorSummary [] failedAgents =
        Except.ok ("Failed agents: " ++ rest) ∧
      "Failed agents: " ++ rest ≠ fallbackSummary := by
  obtain ⟨f, fs, hffs⟩ := List.exists_cons_of_ne_nil h
  subst hffs
  have hover : overviewParts [] (f :: fs) =
      ["Failed agents: " ++ String.intercalate ", " (f :: fs)] := rfl
  obtain ⟨e1, h1⟩ := spacexSection_nil_finalData errorSummary
    ["Failed agents: " ++ String.intercalate ", " (f :: fs)]
  obtain ⟨e2, h2⟩ := weatherSection_nil_finalData errorSummary
    (["Failed agents: " ++ String.intercalate ", " (f :: fs)] ++ e1)
  obtain ⟨e3, h3⟩ := newsSection_nil_finalData errorSummary
    ((["Failed agents: " ++ String.intercalate ", " (f :: fs)] ++ e1) ++ e2)
  obtain ⟨e4, h4⟩ := marketSection_nil_finalData errorSummary
    (((["Failed agents: " ++ String.intercalate ", " (f :: fs)] ++ e1) ++ e2) ++ e3)
  have hchain : createSummary goal [] errorSummary [] (f :: fs) =
      Except.ok (String.intercalate " | "
        (("Failed agents: " ++ String.intercalate ", " (f :: fs)) ::
          (e1 ++ e2 ++ e3 ++ e4))) := by
    unfold createSummary
    rw [hover]
    simp only [bind, Except.bind, h1, h2, h3, h4]
    simp [List.append_assoc, pure, Except.pure]
  obtain ⟨t, ht⟩ := intercalate_cons_exists " | "
    ("Failed agents: " ++ String.intercalate ", " (f :: fs)) (e1 ++ e2 ++ e3 ++ e4)
  rw [ht, String.append_assoc] at hchain
  exact ⟨String.intercalate ", " (f :: fs) ++ t, hchain,
    failed_overview_ne_fallback _⟩

/-- C4 (counterexample): the all-agents-failed scenario (successful list
empty, failed list `["spacex"]`, the agent's error recorded) does not
return the fallback string — the summary lists the failed agent and its
error instead. -/
theorem createSummary_all_failed_counterexample :
    createSummary "goal" [] [("spacex", PyVal.pstr "API timeout")] [] ["spacex"] ≠
      Except.ok fallbackSummary := by
  intro h
  have hv : createSummary "goal" [] [("spacex", PyVal.pstr "API timeout")] [] ["spacex"]
      = Except.ok "Failed agents: spacex | SpaceX data error: API timeout" := rfl
  rw [hv] at h
  exact absurd (Except.ok.inj h) (by decide)

/-- C4 (witness): the amended theorem at the concrete all-failed input. -/
theorem createSummary_all_failed_witness :
    (["spacex"] : List String) ≠ [] ∧
    ∃ rest, createSummary "g" [] [("spacex", PyVal.pstr "boom")] [] ["spacex"] =
        Except.ok ("Failed agents: " ++ rest) ∧
      "Failed agents: " ++ rest ≠ fallbackSummary :=
  ⟨by decide, createSummary_all_failed "g" [("spacex", PyVal.pstr "boom")] ["spacex"] (by decide)⟩

/-- C5: `_create_summary` is not total — a malformed per-agent datum is
not always treated as absent.  A non-dict `sentiment_analysis` value under
`news` raises AttributeError (line 394's `.get` on a non-dict), and a
non-numeric `overall_score` under `market_sentiment` raises at line 408's
`f"{score:.2f}"`. -/
theorem createSummary_raises_on_malformed :
    createSummary "g"
      [("news", PyVal.pdict [("sentiment_analysis", PyVal.pstr "positive")])]
      [] ["news"] [] = Except.error "AttributeError" ∧
    createSummary "g"
      [("market", PyVal.pdict [("market_sentiment",
        PyVal.pdict [("overall_score", PyVal.pstr "strong")])])]
      [] ["market"] [] = Except.error "ValueError" := by
  constructor <;> rfl

end MultiAgentSystem
